import Mathlib

/-!
Shallow embedding of the IUGB data-migration script
(src/iugb_data_migration.py) and proofs about its claims.

Python dictionary rows are modelled as association lists from field name
to `Value`; database effects are modelled as explicit lists of write
operations, with commit/rollback made explicit in the state types.
-/

set_option linter.unusedVariables false

/-- A raw value in a source record: SQL NULL / Python None, a string, or an
integer (the only non-string scalars the script meets). -/
inductive Value where
  | null : Value
  | str : String → Value
  | intV : Int → Value
deriving DecidableEq

/-- Python truthiness of a `Value` (used by `record.get(...)` checks). -/
def Value.truthy : Value → Bool
  | .null => false
  | .str s => !(s == "")
  | .intV n => !(n == 0)

/-- Python `str(value)`. -/
def Value.pyStr : Value → String
  | .null => "None"
  | .str s => s
  | .intV n => toString n


/-- Python whitespace for `str.strip` (the ASCII subset, enough for this
model). -/
def py_is_space (c : Char) : Bool :=
  c == ' ' || c == '\t' || c == '\n' || c == '\r' || c == '\x0b' || c == '\x0c'

/-- Python `s.strip()`. -/
def py_strip (s : String) : String :=
  String.mk (((s.data.dropWhile py_is_space).reverse.dropWhile py_is_space).reverse)

/-- Python `s.lower()` (ASCII model). -/
def py_lower (s : String) : String :=
  String.mk (s.data.map Char.toLower)

/-- Worker for `py_split_comma`, accumulating the current token reversed. -/
def py_split_comma_go : List Char → List Char → List String
  | cur, [] => [String.mk cur.reverse]
  | cur, c :: cs =>
    if c == ',' then String.mk cur.reverse :: py_split_comma_go [] cs
    else py_split_comma_go (c :: cur) cs

/-- Python `s.split(",")`. -/
def py_split_comma (s : String) : List String :=
  py_split_comma_go [] s.data

/-- A source record: a dictionary from field name to value. -/
abbrev Record := List (String × Value)

/-- Python `rec.get(k)`: `some v` when the key is present, `none` otherwise. -/
def recGet (rec : Record) (k : String) : Option Value :=
  (rec.find? (fun kv => kv.1 == k)).map (fun kv => kv.2)

/-- Python `rec.get(k)` with the absent case collapsed to `None`. -/
def recGetNull (rec : Record) (k : String) : Value :=
  (recGet rec k).getD .null

/-- Python `rec.get(k, d)`. -/
def recGetD (rec : Record) (k : String) (d : Value) : Value :=
  (recGet rec k).getD d

/-- Python `rec[k]`: raises `KeyError` when the key is absent. -/
def recIndex (rec : Record) (k : String) : Except String Value :=
  match recGet rec k with
  | some v => .ok v
  | none => .error ("KeyError: " ++ k)

/-- Function divide_records (lines 91-101): split a batch by truthiness of
`custom_field_record_id`, preserving input order in both outputs. -/
def divide_records : List Record → List Record × List Record
  | [] => ([], [])
  | record :: rest =>
    let parts := divide_records rest
    if (recGetNull record "custom_field_record_id").truthy then
      (record :: parts.1, parts.2)
    else
      (parts.1, record :: parts.2)

/-- Function is_empty_value (lines 103-109). -/
def is_empty_value : Value → Bool
  | .null => true
  | .str s =>
    let v := py_lower (py_strip s)
    v == "" || v == "null" || v == "none"
  | .intV _ => false

/-- One value of `sanitize_records` (lines 111-115): empty-like values are
replaced by the canonical empty string. -/
def sanitize_value (v : Value) : Value :=
  if is_empty_value v then .str "" else v

/-- Function sanitize_records on a single record (in-place mutation modelled as a map). -/
def sanitize_record (rec : Record) : Record :=
  rec.map (fun kv => (kv.1, sanitize_value kv.2))

/-- Function sanitize_records (lines 111-115). -/
def sanitize_records (records : List Record) : List Record :=
  records.map sanitize_record

/-- One row of the field-details CSV (raw, untrimmed). -/
structure FieldRow where
  legacyFieldName : String
  targetFieldName : String
  targetTableName : String
  targetColumnName : String
  isMultiSelect : String
deriving DecidableEq

/-- A resolved field mapping rule (lines 131-137 / 277-282). -/
structure FieldMapping where
  legacy_field : String
  target_field : String
  target_table : String
  target_column : String
  is_multiselect : Bool
deriving DecidableEq

/-- Building one mapping rule from a CSV row (lines 131-137). -/
def make_mapping (row : FieldRow) : FieldMapping :=
  { legacy_field := py_strip row.legacyFieldName
    target_field := py_strip row.targetFieldName
    target_table := py_strip row.targetTableName
    target_column := py_strip row.targetColumnName
    is_multiselect := py_lower (py_strip row.isMultiSelect) == "yes" }

/-- The multiselect split (lines 178, 241, 310):
`[v.strip() for v in str(value).split(",") if v.strip()]`. -/
def split_multiselect (s : String) : List String :=
  ((py_split_comma s).map py_strip).filter (fun t => !(t == ""))

/-- A write operation issued by the insert path. -/
inductive WriteOp where
  | entry : Nat → Value → Nat → WriteOp
  | multiValue : String → String → Nat → WriteOp
  | singleValue : String → String → Nat → Value → WriteOp
  | seqUpdate : WriteOp
deriving DecidableEq

/-- The per-mapping writes for one record on the insert path (lines 168-191). -/
def insert_field_ops (rec : Record) (record_id : Nat) (m : FieldMapping) :
    List WriteOp :=
  match recGet rec m.legacy_field with
  | none => []
  | some value =>
    if is_empty_value value then []
    else if m.is_multiselect then
      (split_multiselect value.pyStr).map
        (fun val => .multiValue m.target_table val record_id)
    else
      [.singleValue m.target_table m.target_column record_id value]

/-- Lookup in the form-context map (`form_ctxt_map.get(str(cp_id))`). -/
def ctxtLookup (cmap : List (String × Nat)) (k : String) : Option Nat :=
  (cmap.find? (fun p => p.1 == k)).map (fun p => p.2)

/-- Processing one record inside the insert batch loop (lines 148-191):
allocate nothing here (the id is passed in), resolve the form context,
emit the entry write and the per-mapping writes, or raise. -/
def process_insert_record (fms : List FieldMapping) (cmap : List (String × Nat))
    (record_id : Nat) (rec : Record) : Except String (List WriteOp) :=
  match recIndex rec "cp_id" with
  | .error e => .error e
  | .ok cp_id =>
    match ctxtLookup cmap cp_id.pyStr with
    | none => .error ("No form context ID found for CP ID " ++ cp_id.pyStr)
    | some form_ctxt_id =>
      if form_ctxt_id == 0 then
        .error ("No form context ID found for CP ID " ++ cp_id.pyStr)
      else
        match recIndex rec "specimen_id" with
        | .error e => .error e
        | .ok specimen_id =>
          .ok (.entry form_ctxt_id specimen_id record_id ::
            (fms.map (insert_field_ops rec record_id)).flatten)

/-- A row of a failure-log CSV file. -/
inductive LogRow where
  | header : LogRow
  | insertFail : Record → String → LogRow
  | updateFail : String → String → LogRow
deriving DecidableEq

/-- State carried across insert batches: the sequence counter, the ids handed
out so far, committed writes, failure-log rows written after the header, and
the two counters. -/
structure InsState where
  record_id : Nat
  allocated : List Nat
  committed : List WriteOp
  log_rows : List LogRow
  success_count : Nat
  failure_count : Nat
deriving DecidableEq

/-- The `for rec in batch_records` loop body (lines 148-191): increment the
counter for each record consumed, stop at the first raised error. Returns the
final counter, the ids allocated (in order), and either the accumulated writes
or the first error. -/
def insert_batch_loop (fms : List FieldMapping) (cmap : List (String × Nat)) :
    Nat → List Record → Nat × List Nat × Except String (List WriteOp)
  | rid, [] => (rid, [], .ok [])
  | rid, rec :: rest =>
    match process_insert_record fms cmap (rid + 1) rec with
    | .error e => (rid + 1, [rid + 1], .error e)
    | .ok ops =>
      match insert_batch_loop fms cmap (rid + 1) rest with
      | (rid2, alloc, .ok rest_ops) => (rid2, (rid + 1) :: alloc, .ok (ops ++ rest_ops))
      | (rid2, alloc, .error e) => (rid2, (rid + 1) :: alloc, .error e)

/-- The try/except around one insert batch (lines 147-207): on success the
batch's writes plus the sequence update are committed; on any error the batch
is rolled back wholesale and every record of the batch is logged with the
triggering error. -/
def insert_batch (fms : List FieldMapping) (cmap : List (String × Nat))
    (st : InsState) (batch : List Record) : InsState :=
  match insert_batch_loop fms cmap st.record_id batch with
  | (rid, alloc, .ok ops) =>
    { record_id := rid
      allocated := st.allocated ++ alloc
      committed := st.committed ++ ops ++ [.seqUpdate]
      log_rows := st.log_rows
      success_count := st.success_count + batch.length
      failure_count := st.failure_count }
  | (rid, alloc, .error e) =>
    { record_id := rid
      allocated := st.allocated ++ alloc
      committed := st.committed
      log_rows := st.log_rows ++ batch.map (fun r => .insertFail r e)
      success_count := st.success_count
      failure_count := st.failure_count + batch.length }

/-- Seeding of the sequence counter (line 120):
`record_id = cursor.fetchone()[0] or 1` — NULL and 0 both fall back to 1. -/
def seed_record_id (dbMax : Option Nat) : Nat :=
  match dbMax with
  | none => 1
  | some m => if m == 0 then 1 else m

/-- The `batch_records` accumulation (lines 142-145): append each record,
flush a chunk when it reaches 100 records, and flush the remainder at
end-of-input when non-empty (line 209). The slicing of lines 295-296
produces the same grouping. -/
def chunks_go {α : Type} : List α → List α → List (List α)
  | cur, [] => if cur.isEmpty then [] else [cur]
  | cur, x :: xs =>
    if (cur ++ [x]).length == 100 then (cur ++ [x]) :: chunks_go [] xs
    else chunks_go (cur ++ [x]) xs

/-- Grouping into chunks of 100. -/
def chunksOf100 {α : Type} (l : List α) : List (List α) :=
  chunks_go [] l

/-- Function insert_records (lines 117-271): seed the counter from the store's
current maximum, sanitize, and process the records in batches of 100.
The failure-log file is opened in write mode, so its content after the call
is `LogRow.header :: log_rows` regardless of previous content. -/
def insert_records (field_details : List FieldRow) (cmap : List (String × Nat))
    (dbMax : Option Nat) (records : List Record) : InsState :=
  (chunksOf100 (sanitize_records records)).foldl
    (insert_batch (field_details.map make_mapping) cmap)
    { record_id := seed_record_id dbMax
      allocated := []
      committed := []
      log_rows := []
      success_count := 0
      failure_count := 0 }

/-- The target store as seen by the update path's reads: the current single
value of a column keyed by identifier (`none` models both a missing row and a
NULL column, line 333), and the existing multiselect values for a record. -/
structure Store where
  single : String → String → Value → Option Value
  multi : String → Value → List String

/-- A write operation issued by the update path. -/
inductive UpdateOp where
  | insertValue : String → String → Value → UpdateOp
  | updateCol : String → String → String → Value → UpdateOp
deriving DecidableEq

/-- The per-mapping reconciliation for one record on the update path
(lines 304-344). -/
def update_field_ops (store : Store) (record_id : Value) (rec : Record)
    (m : FieldMapping) : List UpdateOp :=
  let legacy_val := recGetD rec m.legacy_field (.str "")
  if is_empty_value legacy_val then []
  else if m.is_multiselect then
    let new_vals := split_multiselect legacy_val.pyStr
    if new_vals.isEmpty then []
    else
      let existing := store.multi m.target_table record_id
      (new_vals.filter (fun val => !(existing.contains val))).map
        (fun val => .insertValue m.target_table val record_id)
  else
    let clean_val := py_strip legacy_val.pyStr
    match store.single m.target_table m.target_column record_id with
    | none => [.updateCol m.target_table m.target_column clean_val record_id]
    | some current_val =>
      if py_strip current_val.pyStr == clean_val then []
      else [.updateCol m.target_table m.target_column clean_val record_id]

/-- Processing one record in the update loop (lines 299-346): read the
record's own target identifier, raise when it is falsy, else emit the
reconciliation writes of every mapping. -/
def update_process_record (store : Store) (fms : List FieldMapping)
    (rec : Record) : Except String (List UpdateOp) :=
  match recIndex rec "custom_field_record_id" with
  | .error e => .error e
  | .ok record_id =>
    if record_id.truthy then
      .ok ((fms.map (update_field_ops store record_id rec)).flatten)
    else
      .error "Missing record_id for update"

/-- Python `rec.get("specimen_label", "UNKNOWN")` rendered for the CSV (line 350). -/
def update_label (rec : Record) : String :=
  match recGet rec "specimen_label" with
  | some v => v.pyStr
  | none => "UNKNOWN"

/-- State of the update path: uncommitted writes of the current transaction,
committed writes, failure rows, and the counters. -/
structure UpdState where
  pending : List UpdateOp
  committed : List UpdateOp
  failures : List LogRow
  success_count : Nat
  failure_count : Nat
deriving DecidableEq

/-- The per-record try/except (lines 298-351): on success the record's writes
join the uncommitted transaction; on error `connection.rollback()` discards
ALL uncommitted writes, one failure row keyed by the specimen label is
written, and the loop continues. -/
def update_step (store : Store) (fms : List FieldMapping)
    (st : UpdState) (rec : Record) : UpdState :=
  match update_process_record store fms rec with
  | .ok ops =>
    { st with
      pending := st.pending ++ ops,
      success_count := st.success_count + 1 }
  | .error e =>
    { st with
      pending := [],
      failures := st.failures ++ [.updateFail (update_label rec) e],
      failure_count := st.failure_count + 1 }

/-- One 100-record chunk of the update loop followed by the commit of
line 353: whatever is still uncommitted becomes durable. -/
def update_chunk (store : Store) (fms : List FieldMapping)
    (st : UpdState) (chunk : List Record) : UpdState :=
  let st2 := chunk.foldl (update_step store fms) st
  { st2 with committed := st2.committed ++ st2.pending, pending := [] }

/-- Opening the update failure log in append mode (lines 285-289): a header
is written only when the file did not previously exist. -/
def append_log (oldFile : Option (List LogRow)) (rows : List LogRow) :
    Option (List LogRow) :=
  match oldFile with
  | none => some (LogRow.header :: rows)
  | some old => some (old ++ rows)

/-- Function update_records (lines 273-356). Returns the final state and the new
content of the failure-log file. -/
def update_records (store : Store) (field_details : List FieldRow)
    (oldFile : Option (List LogRow)) (records : List Record) :
    UpdState × Option (List LogRow) :=
  let st := (chunksOf100 (sanitize_records records)).foldl
    (update_chunk store (field_details.map make_mapping))
    { pending := [], committed := [], failures := [],
      success_count := 0, failure_count := 0 }
  (st, append_log oldFile st.failures)

/-- Function fetch_form_ctxt_ids (lines 80-89): the rows of the form-context table
restricted to the requested protocol identifiers, keyed by `str(cp_id)`. -/
def fetch_form_ctxt_ids (ctxtTable : List (String × Nat)) (cp_ids : List Value) :
    List (String × Nat) :=
  ctxtTable.filter (fun row => (cp_ids.map Value.pyStr).contains row.1)

/-- The record identifiers of the entry-table rows among some committed
writes (what `SELECT MAX(record_id) FROM catissue_form_record_entry` sees). -/
def entry_ids (ops : List WriteOp) : List Nat :=
  ops.filterMap (fun op => match op with
    | .entry _ _ rid => some rid
    | _ => none)

/-- New maximum of the entry table after committing rows with the given ids. -/
def bump_db_max (dbMax : Option Nat) (ids : List Nat) : Option Nat :=
  ids.foldl (fun acc i => some (max (acc.getD 0) i)) dbMax

/-- Run-level state of `main` (lines 358-455): the entry table's maximum id,
the two failure-log files, all committed writes, all allocated identifiers,
and the running totals. -/
structure MainState where
  dbMax : Option Nat
  insertFile : Option (List LogRow)
  updateFile : Option (List LogRow)
  insCommitted : List WriteOp
  updCommitted : List UpdateOp
  allocated : List Nat
  total_inserted : Nat
  total_updated : Nat
  total_failed : Nat
  processed : Nat
deriving DecidableEq

/-- One iteration of the `for batch in fetch_records_in_batches` loop
(lines 428-450): divide the raw batch, build the context map from the
insert-candidates, then run the insert path and the update path, each only
when its partition is non-empty. -/
def main_step (field_details : List FieldRow) (store : Store)
    (ctxtTable : List (String × Nat)) (st : MainState) (batch : List Record) :
    MainState :=
  let to_update := (divide_records batch).1
  let to_insert := (divide_records batch).2
  let cmap := fetch_form_ctxt_ids ctxtTable
    (to_insert.map (fun r => recGetNull r "cp_id"))
  let st1 :=
    if to_insert.isEmpty then st
    else
      let res := insert_records field_details cmap st.dbMax to_insert
      { st with
        dbMax := bump_db_max st.dbMax (entry_ids res.committed)
        insertFile := some (LogRow.header :: res.log_rows)
        insCommitted := st.insCommitted ++ res.committed
        allocated := st.allocated ++ res.allocated
        total_inserted := st.total_inserted + res.success_count
        total_failed := st.total_failed + res.failure_count }
  let st2 :=
    if to_update.isEmpty then st1
    else
      let resu := update_records store field_details st1.updateFile to_update
      { st1 with
        updateFile := resu.2
        updCommitted := st1.updCommitted ++ resu.1.committed
        total_updated := st1.total_updated + resu.1.success_count
        total_failed := st1.total_failed + resu.1.failure_count }
  { st2 with processed := st2.processed + batch.length }

/-- The whole run of `main` over the fetched batches. -/
def run_main (field_details : List FieldRow) (store : Store)
    (ctxtTable : List (String × Nat)) (st : MainState)
    (batches : List (List Record)) : MainState :=
  batches.foldl (main_step field_details store ctxtTable) st

/-- A fresh run-level state over a given store content. -/
def init_main (dbMax : Option Nat)
    (insertFile updateFile : Option (List LogRow)) : MainState :=
  { dbMax := dbMax, insertFile := insertFile, updateFile := updateFile
    insCommitted := [], updCommitted := [], allocated := []
    total_inserted := 0, total_updated := 0, total_failed := 0, processed := 0 }

/-! Concrete fixtures used by witnesses and counterexamples. -/

/-- An insert candidate whose protocol resolves in the context table. -/
def goodRec : Record := [("cp_id", .str "1"), ("specimen_id", .intV 501)]

/-- A second resolving insert candidate. -/
def goodRec2 : Record := [("cp_id", .str "1"), ("specimen_id", .intV 503)]

/-- An insert candidate whose protocol has no context entry. -/
def badRec : Record := [("cp_id", .str "2"), ("specimen_id", .intV 502)]

/-- Another insert candidate with an unresolvable protocol. -/
def badRec3 : Record := [("cp_id", .str "3"), ("specimen_id", .intV 504)]

/-- A context table resolving only protocol "1". -/
def ctxtTable1 : List (String × Nat) := [("1", 10)]

/-- A store with no current values (every read misses). -/
def testStore : Store :=
  { single := fun _ _ _ => none, multi := fun _ _ => [] }

/-- A single-valued mapping row: legacy field F1 into table T column C. -/
def fdRow : FieldRow :=
  { legacyFieldName := "F1", targetFieldName := "F1T"
    targetTableName := "T", targetColumnName := "C", isMultiSelect := "no" }

/-- A multi-valued mapping row: legacy field F2 into table TM. -/
def fdRowM : FieldRow :=
  { legacyFieldName := "F2", targetFieldName := "F2T"
    targetTableName := "TM", targetColumnName := "CM", isMultiSelect := "yes" }

/-- An update candidate with a valid target identifier and one field value. -/
def goodUpd : Record :=
  [("custom_field_record_id", .intV 7), ("specimen_label", .str "SP1"),
   ("F1", .str "X")]

/-- An update candidate whose target identifier is the empty-like string
"null": truthy before sanitization, blank after it. -/
def badUpd : Record :=
  [("custom_field_record_id", .str "null"), ("specimen_label", .str "SP2")]

/-- A record carrying a multiselect value for field F2. -/
def mrec : Record := [("F2", .str "A, B ,,C")]

/-- An insert-path state mid-run, with counter 5 and one committed write. -/
def insInit0 : InsState :=
  { record_id := 5, allocated := [], committed := [WriteOp.seqUpdate],
    log_rows := [], success_count := 0, failure_count := 0 }

/-- An update-path state with one uncommitted pending write. -/
def updSt1 : UpdState :=
  { pending := [UpdateOp.updateCol "T" "C" "X" (.intV 7)], committed := [],
    failures := [], success_count := 1, failure_count := 0 }

/-- A store whose single-valued reads all return " X " (equal to "X" after
trimming). -/
def wStore : Store :=
  { single := fun _ _ _ => some (.str " X "), multi := fun _ _ => [] }

/-- The single-valued mapping resolved from `fdRow`. -/
def mC : FieldMapping := make_mapping fdRow

/-! Helper lemmas. -/

/-- The update partition is the order-preserving filter by truthiness of the
target record identifier. -/
theorem divide_records_fst (records : List Record) :
    (divide_records records).1 =
      records.filter (fun r => (recGetNull r "custom_field_record_id").truthy) := by
  induction records with
  | nil => rfl
  | cons r rest ih =>
    by_cases h : (recGetNull r "custom_field_record_id").truthy = true
    · simp [divide_records, h, ih]
    · simp [divide_records, h, ih]

/-- The insert partition is the order-preserving filter by falsiness of the
target record identifier. -/
theorem divide_records_snd (records : List Record) :
    (divide_records records).2 =
      records.filter (fun r => !((recGetNull r "custom_field_record_id").truthy)) := by
  induction records with
  | nil => rfl
  | cons r rest ih =>
    by_cases h : (recGetNull r "custom_field_record_id").truthy = true
    · simp [divide_records, h, ih]
    · simp [divide_records, h, ih]

/-- Sanitizing a value twice is the same as sanitizing it once. -/
theorem sanitize_value_idem (v : Value) :
    sanitize_value (sanitize_value v) = sanitize_value v := by
  by_cases h : is_empty_value v = true
  · simp [sanitize_value, h]
  · simp [sanitize_value, h]

/-- Sanitizing a record twice is the same as sanitizing it once. -/
theorem sanitize_record_idem (rec : Record) :
    sanitize_record (sanitize_record rec) = sanitize_record rec := by
  induction rec with
  | nil => rfl
  | cons kv rest ih => simp [sanitize_record, sanitize_value_idem]

/-- The insert batch loop increments the counter once per record consumed
(stopping at the first error) and hands out exactly the consecutive
identifiers above the incoming counter. -/
theorem insert_batch_loop_spec (fms : List FieldMapping)
    (cmap : List (String × Nat)) (l : List Record) : ∀ rid : Nat, ∃ k : Nat,
    (insert_batch_loop fms cmap rid l).1 = rid + k ∧
    (insert_batch_loop fms cmap rid l).2.1 = List.range' (rid + 1) k ∧
    k ≤ l.length ∧ (l ≠ [] → 1 ≤ k) := by
  induction l with
  | nil =>
    intro rid
    exact ⟨0, by simp [insert_batch_loop]⟩
  | cons rec rest ih =>
    intro rid
    cases hp : process_insert_record fms cmap (rid + 1) rec with
    | error e =>
      refine ⟨1, ?_⟩
      simp [insert_batch_loop, hp]
    | ok ops =>
      obtain ⟨k, h1, h2, h3, h4⟩ := ih (rid + 1)
      refine ⟨k + 1, ?_⟩
      rcases hrec : insert_batch_loop fms cmap (rid + 1) rest with ⟨rid2, alloc, res⟩
      rw [hrec] at h1 h2
      simp only at h1 h2
      cases res with
      | ok rest_ops =>
        simp only [insert_batch_loop, hp, hrec]
        refine ⟨by omega, ?_, by simp; omega, fun _ => by omega⟩
        rw [List.range'_succ, h2]
      | error e =>
        simp only [insert_batch_loop, hp, hrec]
        refine ⟨by omega, ?_, by simp; omega, fun _ => by omega⟩
        rw [List.range'_succ, h2]

/-- Function insert_batch carries the loop's final counter and appends exactly the
loop's allocated identifiers, whether the batch commits or rolls back. -/
theorem insert_batch_spec (fms : List FieldMapping) (cmap : List (String × Nat))
    (st : InsState) (batch : List Record) : ∃ k : Nat,
    (insert_batch fms cmap st batch).record_id = st.record_id + k ∧
    (insert_batch fms cmap st batch).allocated =
      st.allocated ++ List.range' (st.record_id + 1) k ∧
    (batch ≠ [] → 1 ≤ k) := by
  obtain ⟨k, h1, h2, h3, h4⟩ := insert_batch_loop_spec fms cmap batch st.record_id
  refine ⟨k, ?_, ?_, h4⟩ <;>
  · rcases hrec : insert_batch_loop fms cmap st.record_id batch with ⟨rid, alloc, res⟩
    rw [hrec] at h1 h2
    simp only at h1 h2
    cases res <;> simp [insert_batch, hrec, h1, h2]

/-- Folding `insert_batch` over any chunk list hands out exactly the
consecutive identifiers above the incoming counter, at least one of them when
some chunk is non-empty. -/
theorem insert_fold_spec (fms : List FieldMapping) (cmap : List (String × Nat))
    (chunks : List (List Record)) : ∀ st : InsState, ∃ k : Nat,
    (chunks.foldl (insert_batch fms cmap) st).record_id = st.record_id + k ∧
    (chunks.foldl (insert_batch fms cmap) st).allocated =
      st.allocated ++ List.range' (st.record_id + 1) k ∧
    ((∃ c ∈ chunks, c ≠ []) → 1 ≤ k) := by
  induction chunks with
  | nil =>
    intro st
    exact ⟨0, by simp⟩
  | cons c cs ih =>
    intro st
    obtain ⟨k1, hb1, hb2, hb3⟩ := insert_batch_spec fms cmap st c
    obtain ⟨k2, hf1, hf2, hf3⟩ := ih (insert_batch fms cmap st c)
    refine ⟨k1 + k2, ?_, ?_, ?_⟩
    · simp only [List.foldl_cons, hf1, hb1]
      omega
    · simp only [List.foldl_cons, hf2, hb2, hb1, List.append_assoc]
      have harr : st.record_id + k1 + 1 = (st.record_id + 1) + k1 := by omega
      rw [harr, List.range'_append_1, Nat.add_comm k2 k1]
    · intro hex
      obtain ⟨x, hx, hxne⟩ := hex
      rcases List.mem_cons.mp hx with h | h
      · have := hb3 (h ▸ hxne)
        omega
      · have := hf3 ⟨x, h, hxne⟩
        omega

/-- When the accumulator or the remaining input is non-empty, the chunking
produces at least one non-empty chunk. -/
theorem chunks_go_has_nonempty {α : Type} (l : List α) :
    ∀ cur : List α, cur ≠ [] ∨ l ≠ [] →
      ∃ c ∈ chunks_go cur l, c ≠ [] := by
  induction l with
  | nil =>
    intro cur h
    have hcur : cur ≠ [] := by
      rcases h with h | h
      · exact h
      · exact absurd rfl h
    have hne : cur.isEmpty = false := by
      cases cur with
      | nil => exact absurd rfl hcur
      | cons a l => rfl
    refine ⟨cur, ?_, hcur⟩
    simp [chunks_go, hne]
  | cons x xs ih =>
    intro cur h
    by_cases h99 : cur.length = 99
    · refine ⟨cur ++ [x], ?_, by simp⟩
      simp [chunks_go, h99]
    · obtain ⟨c, hc, hcne⟩ := ih (cur ++ [x]) (Or.inl (by simp))
      refine ⟨c, ?_, hcne⟩
      simpa [chunks_go, h99] using hc

/-- Function insert_records hands out exactly the consecutive identifiers above the
seed, and at least one of them when the input is non-empty. -/
theorem insert_records_alloc (fd : List FieldRow) (cmap : List (String × Nat))
    (dbMax : Option Nat) (records : List Record) : ∃ k : Nat,
    (insert_records fd cmap dbMax records).allocated =
      List.range' (seed_record_id dbMax + 1) k ∧
    (insert_records fd cmap dbMax records).record_id = seed_record_id dbMax + k ∧
    (records ≠ [] → 1 ≤ k) := by
  obtain ⟨k, h1, h2, h3⟩ := insert_fold_spec (fd.map make_mapping) cmap
    (chunksOf100 (sanitize_records records))
    { record_id := seed_record_id dbMax, allocated := [], committed := [],
      log_rows := [], success_count := 0, failure_count := 0 }
  refine ⟨k, ?_, ?_, ?_⟩
  · simpa [insert_records] using h2
  · simpa [insert_records] using h1
  · intro hne
    apply h3
    apply chunks_go_has_nonempty
    right
    cases records with
    | nil => exact absurd rfl hne
    | cons r rs => simp [sanitize_records]

/-- A record whose protocol identifier has no entry in the context map makes
`process_insert_record` raise, independently of the allocated identifier. -/
theorem process_insert_record_no_ctxt (fms : List FieldMapping)
    (cmap : List (String × Nat)) (rid : Nat) (rec : Record) (cp : Value)
    (hcp : recIndex rec "cp_id" = .ok cp)
    (hmap : ctxtLookup cmap cp.pyStr = none) :
    process_insert_record fms cmap rid rec =
      .error ("No form context ID found for CP ID " ++ cp.pyStr) := by
  simp [process_insert_record, hcp, hmap]

/-- When some record of the list raises for every identifier, the batch loop
ends in an error. -/
theorem insert_batch_loop_error (fms : List FieldMapping)
    (cmap : List (String × Nat)) (l : List Record)
    (h : ∃ r ∈ l, ∀ rid : Nat, ∃ e, process_insert_record fms cmap rid r = .error e) :
    ∀ rid : Nat, ∃ e, (insert_batch_loop fms cmap rid l).2.2 = .error e := by
  induction l with
  | nil =>
    obtain ⟨r, hr, _⟩ := h
    cases hr
  | cons rec rest ih =>
    intro rid
    obtain ⟨r, hr, hfail⟩ := h
    cases hp : process_insert_record fms cmap (rid + 1) rec with
    | error e => exact ⟨e, by simp [insert_batch_loop, hp]⟩
    | ok ops =>
      have hrrest : r ∈ rest := by
        rcases List.mem_cons.mp hr with h1 | h1
        · exfalso
          obtain ⟨e, he⟩ := hfail (rid + 1)
          rw [h1] at he
          rw [hp] at he
          cases he
        · exact h1
      obtain ⟨e, he⟩ := ih ⟨r, hrrest, hfail⟩ (rid + 1)
      rcases hrec : insert_batch_loop fms cmap (rid + 1) rest with ⟨rid2, alloc, res⟩
      rw [hrec] at he
      simp only at he
      cases res with
      | ok rest_ops => cases he
      | error e2 =>
        refine ⟨e2, ?_⟩
        simp [insert_batch_loop, hp, hrec]

/-! Claim theorems. -/

/-- Claim C7 (confirmed): record classification is a total, exclusive,
order-preserving partition: the update partition is exactly the records whose
`custom_field_record_id` is truthy (in input order, as a filter), the insert
partition is exactly the rest (in input order), every input record lands in
exactly one of the two partitions, and the empty batch yields two empty
partitions. -/
theorem divide_records_partition (records : List Record) :
    (divide_records records).1 =
      records.filter (fun r => (recGetNull r "custom_field_record_id").truthy) ∧
    (divide_records records).2 =
      records.filter (fun r => !((recGetNull r "custom_field_record_id").truthy)) ∧
    (∀ r ∈ records,
      (r ∈ (divide_records records).1 ∧ r ∉ (divide_records records).2) ∨
      (r ∈ (divide_records records).2 ∧ r ∉ (divide_records records).1)) ∧
    divide_records [] = ([], []) := by
  refine ⟨divide_records_fst records, divide_records_snd records, ?_, rfl⟩
  intro r hr
  by_cases h : (recGetNull r "custom_field_record_id").truthy = true
  · left
    constructor
    · rw [divide_records_fst]
      exact List.mem_filter.mpr ⟨hr, h⟩
    · rw [divide_records_snd]
      intro hmem
      have := (List.mem_filter.mp hmem).2
      simp [h] at this
  · right
    constructor
    · rw [divide_records_snd]
      refine List.mem_filter.mpr ⟨hr, ?_⟩
      simp [h]
    · rw [divide_records_fst]
      intro hmem
      exact h (List.mem_filter.mp hmem).2

/-- Witness for C7 at a concrete batch: the record with a truthy target
identifier lands in the update partition only. -/
theorem divide_records_partition_witness :
    (goodUpd ∈ (divide_records [goodUpd, goodRec]).1 ∧
      goodUpd ∉ (divide_records [goodUpd, goodRec]).2) ∨
    (goodUpd ∈ (divide_records [goodUpd, goodRec]).2 ∧
      goodUpd ∉ (divide_records [goodUpd, goodRec]).1) :=
  (divide_records_partition [goodUpd, goodRec]).2.2.1 goodUpd (by decide)

/-- Claim C8 (confirmed): a value is empty-like exactly when it is null or a
string whose trimmed lower-cased form is "", "null" or "none"; non-string
non-null values never are; sanitization replaces exactly the empty-like
values with the canonical empty string, leaves the others unchanged, and is
idempotent on records. -/
theorem sanitize_empty_like_characterization :
    (∀ v : Value, is_empty_value v = true ↔
      (v = .null ∨ ∃ s : String, v = .str s ∧
        (py_lower (py_strip s) = "" ∨ py_lower (py_strip s) = "null" ∨
          py_lower (py_strip s) = "none"))) ∧
    (∀ n : Int, is_empty_value (.intV n) = false) ∧
    (∀ v : Value, is_empty_value v = true → sanitize_value v = .str "") ∧
    (∀ v : Value, is_empty_value v = false → sanitize_value v = v) ∧
    (∀ rec : Record, sanitize_record (sanitize_record rec) = sanitize_record rec) := by
  refine ⟨?_, fun n => rfl, ?_, ?_, sanitize_record_idem⟩
  · intro v
    cases v with
    | null => simp [is_empty_value]
    | str s => simp [is_empty_value, or_assoc]
    | intV n => simp [is_empty_value]
  · intro v h
    simp [sanitize_value, h]
  · intro v h
    simp [sanitize_value, h]

/-- Witness for C8 on concrete values: an empty-like string is blanked, a
non-string scalar is untouched. -/
theorem sanitize_empty_like_characterization_witness :
    sanitize_value (Value.str " NULL ") = Value.str "" ∧
    sanitize_value (Value.intV 5) = Value.intV 5 :=
  ⟨sanitize_empty_like_characterization.2.2.1 (Value.str " NULL ") (by decide),
   sanitize_empty_like_characterization.2.2.2.1 (Value.intV 5) (by decide)⟩

/-- Claim C9 (confirmed): for a multi-valued mapping rule the raw value is
split on commas, every token trimmed and empty tokens dropped — the sample
input "A, B ,,C" yields exactly the tokens A, B, C — and one upsert write
operation is emitted per surviving token. -/
theorem multiselect_split_ops (rec : Record) (record_id : Nat)
    (m : FieldMapping) (v : Value) (hm : m.is_multiselect = true)
    (hv : recGet rec m.legacy_field = some v)
    (hne : is_empty_value v = false) :
    split_multiselect "A, B ,,C" = ["A", "B", "C"] ∧
    insert_field_ops rec record_id m =
      (split_multiselect v.pyStr).map
        (fun val => WriteOp.multiValue m.target_table val record_id) ∧
    ∀ t ∈ split_multiselect v.pyStr, t ≠ "" := by
  refine ⟨by decide, ?_, ?_⟩
  · simp [insert_field_ops, hv, hne, hm]
  · intro t ht
    have := (List.mem_filter.mp ht).2
    simpa using this

/-- Witness for C9 on the sample input: three upsert writes, one per token. -/
theorem multiselect_split_ops_witness :
    insert_field_ops mrec 9 (make_mapping fdRowM) =
      [WriteOp.multiValue "TM" "A" 9, WriteOp.multiValue "TM" "B" 9,
        WriteOp.multiValue "TM" "C" 9] := by
  rw [(multiselect_split_ops mrec 9 (make_mapping fdRowM)
    (Value.str "A, B ,,C") (by decide) (by decide) (by decide)).2.1]
  decide

/-- Claim C1 (amended): a record whose protocol identifier has no entry in
the context map makes the insert batch loop raise, and the exception aborts
and rolls back the ENTIRE batch: nothing of the batch is committed, no batch
record counts as a success, the whole batch counts as failures, and every
record of the batch — the offending one and its otherwise-valid siblings —
is logged exactly once with the triggering error. -/
theorem insert_missing_context_aborts_whole_batch (fms : List FieldMapping)
    (cmap : List (String × Nat)) (st : InsState) (batch : List Record)
    (r : Record) (cp : Value) (hr : r ∈ batch)
    (hcp : recIndex r "cp_id" = .ok cp)
    (hmap : ctxtLookup cmap cp.pyStr = none) :
    (insert_batch fms cmap st batch).committed = st.committed ∧
    (insert_batch fms cmap st batch).success_count = st.success_count ∧
    (insert_batch fms cmap st batch).failure_count =
      st.failure_count + batch.length ∧
    ∃ e, (insert_batch fms cmap st batch).log_rows =
      st.log_rows ++ batch.map (fun x => LogRow.insertFail x e) := by
  have hfail : ∀ rid : Nat, ∃ e, process_insert_record fms cmap rid r = .error e :=
    fun rid => ⟨_, process_insert_record_no_ctxt fms cmap rid r cp hcp hmap⟩
  obtain ⟨e, he⟩ := insert_batch_loop_error fms cmap batch ⟨r, hr, hfail⟩ st.record_id
  rcases hrec : insert_batch_loop fms cmap st.record_id batch with ⟨rid, alloc, res⟩
  rw [hrec] at he
  simp only at he
  cases res with
  | ok ops => cases he
  | error e2 =>
    refine ⟨?_, ?_, ?_, e2, ?_⟩ <;> simp [insert_batch, hrec]

/-- Witness for C1 at a concrete batch with one unresolvable record. -/
theorem insert_missing_context_aborts_whole_batch_witness :
    (insert_batch [] ctxtTable1 insInit0 [goodRec, badRec]).committed =
      insInit0.committed ∧
    (insert_batch [] ctxtTable1 insInit0 [goodRec, badRec]).success_count =
      insInit0.success_count ∧
    (insert_batch [] ctxtTable1 insInit0 [goodRec, badRec]).failure_count =
      insInit0.failure_count + ([goodRec, badRec] : List Record).length ∧
    ∃ e, (insert_batch [] ctxtTable1 insInit0 [goodRec, badRec]).log_rows =
      insInit0.log_rows ++
        ([goodRec, badRec] : List Record).map (fun x => LogRow.insertFail x e) :=
  insert_missing_context_aborts_whole_batch [] ctxtTable1 insInit0
    [goodRec, badRec] badRec (Value.str "2") (by decide) rfl rfl

/-- Counterexample to C1 as stated: in the batch [goodRec, badRec] only
badRec lacks a context entry, yet the sibling goodRec does not commit and
does not count as a success — the whole batch fails and is rolled back. -/
theorem insert_missing_context_sibling_rollback_cex :
    (insert_records [] ctxtTable1 (some 5) [goodRec, badRec]).success_count = 0 ∧
    (insert_records [] ctxtTable1 (some 5) [goodRec, badRec]).failure_count = 2 ∧
    (insert_records [] ctxtTable1 (some 5) [goodRec, badRec]).committed = [] ∧
    (insert_records [] ctxtTable1 (some 5) [goodRec, badRec]).log_rows.length = 2 := by
  refine ⟨?_, ?_, ?_, ?_⟩ <;> decide

/-- Claim C2 (amended): an exception while reconciling one update record
triggers a connection-level rollback that discards ALL uncommitted writes of
the current chunk — including writes of earlier successfully-reconciled
records since the last commit — logs exactly one failure entry keyed by the
record's specimen label, increments the failure counter, leaves the success
counter and the committed writes unchanged, and processing continues with
the next record. -/
theorem update_failure_discards_uncommitted_chunk_writes (store : Store)
    (fms : List FieldMapping) (st : UpdState) (rec : Record) (e : String)
    (h : update_process_record store fms rec = .error e) :
    update_step store fms st rec =
      { st with
        pending := [],
        failures := st.failures ++ [.updateFail (update_label rec) e],
        failure_count := st.failure_count + 1 } ∧
    List.foldl (update_step store fms) st (rec :: []) =
      update_step store fms st rec :=
  ⟨by simp [update_step, h], rfl⟩

/-- Witness for C2: a failing record wipes a non-empty pending write set. -/
theorem update_failure_discards_uncommitted_chunk_writes_witness :
    update_step testStore [] updSt1 (sanitize_record badUpd) =
      { updSt1 with
        pending := [],
        failures := updSt1.failures ++
          [.updateFail (update_label (sanitize_record badUpd))
            "Missing record_id for update"],
        failure_count := updSt1.failure_count + 1 } ∧
    List.foldl (update_step testStore []) updSt1 (sanitize_record badUpd :: []) =
      update_step testStore [] updSt1 (sanitize_record badUpd) :=
  update_failure_discards_uncommitted_chunk_writes testStore [] updSt1
    (sanitize_record badUpd) "Missing record_id for update" rfl

/-- Counterexample to C2 as stated: goodUpd reconciles first and emits a
write; badUpd then fails, and the rollback discards goodUpd's write too —
nothing is committed although the success counter still counts goodUpd. -/
theorem update_failure_sibling_writes_lost_cex :
    (update_records testStore [fdRow] none [goodUpd, badUpd]).1.success_count = 1 ∧
    (update_records testStore [fdRow] none [goodUpd, badUpd]).1.failure_count = 1 ∧
    (update_records testStore [fdRow] none [goodUpd, badUpd]).1.committed = [] ∧
    (update_records testStore [fdRow] none [goodUpd, badUpd]).1.failures =
      [.updateFail "SP2" "Missing record_id for update"] := by
  refine ⟨?_, ?_, ?_, ?_⟩ <;> decide

/-- Claim C3 (amended): within a single insert-path invocation the target
record identifier is incremented once per record consumed (up to and
including the first failing record of each batch, whose identifier is still
burned), and the allocated identifiers are exactly the consecutive ascending
range above the seed — strictly increasing, so no value is handed out twice
by one invocation. The run, however, re-seeds the counter from the store's
current maximum for every fetched batch, so identifiers consumed by a
failed, rolled-back batch ARE re-allocated to later batches of the same run
(see the counterexample). -/
theorem insert_alloc_consecutive_within_call (fd : List FieldRow)
    (cmap : List (String × Nat)) (dbMax : Option Nat) (records : List Record) :
    (∃ k, (insert_records fd cmap dbMax records).allocated =
      List.range' (seed_record_id dbMax + 1) k) ∧
    (insert_records fd cmap dbMax records).allocated.Pairwise (· < ·) := by
  obtain ⟨k, h1, h2, h3⟩ := insert_records_alloc fd cmap dbMax records
  refine ⟨⟨k, h1⟩, ?_⟩
  rw [h1]
  exact List.pairwise_lt_range' (seed_record_id dbMax + 1) k

/-- Counterexample to C3 as stated: with the entry table at maximum 5, batch
one consumes identifiers 6 and 7 and is rolled back (its second record has
no context entry); batch two re-seeds from the unchanged maximum and hands
out 6 again. The run-wide allocation sequence is [6, 7, 6]: identifier 6 is
handed out twice in the same run and the sequence decreases. -/
theorem run_reallocates_ids_after_failed_batch_cex :
    (run_main [] testStore ctxtTable1 (init_main (some 5) none none)
      [[goodRec, badRec], [goodRec2]]).allocated = [6, 7, 6] ∧
    ¬ (run_main [] testStore ctxtTable1 (init_main (some 5) none none)
      [[goodRec, badRec], [goodRec2]]).allocated.Nodup ∧
    ¬ (run_main [] testStore ctxtTable1 (init_main (some 5) none none)
      [[goodRec, badRec], [goodRec2]]).allocated.Pairwise (· ≤ ·) := by
  refine ⟨by decide, by decide, by decide⟩

/-- Claim C5 (amended): the allocator seeds from the store's maximum M and,
when M ≥ 1 exists, the first identifier handed out is M+1; but when no
identifier exists yet the seed falls back to 1 and the counter is
incremented before first use, so the first record inserted into an empty
entry table receives identifier 2, not 1. -/
theorem seed_and_first_identifier (fd : List FieldRow)
    (cmap : List (String × Nat)) (dbMax : Option Nat) (records : List Record)
    (h : records ≠ []) :
    (∀ M : Nat, dbMax = some M → 1 ≤ M →
      (insert_records fd cmap dbMax records).allocated.head? = some (M + 1)) ∧
    (dbMax = none →
      (insert_records fd cmap dbMax records).allocated.head? = some 2) := by
  obtain ⟨k, h1, h2, h3⟩ := insert_records_alloc fd cmap dbMax records
  have hk1 : 1 ≤ k := h3 h
  have hhead : (insert_records fd cmap dbMax records).allocated.head? =
      some (seed_record_id dbMax + 1) := by
    rw [h1]
    cases k with
    | zero => omega
    | succ n => rw [List.range'_succ]; rfl
  constructor
  · intro M hM hM1
    rw [hhead, hM]
    have hM0 : (M == 0) = false := by
      cases hq : (M == 0) with
      | true =>
        exfalso
        have : M = 0 := by simpa using hq
        omega
      | false => rfl
    simp [seed_record_id, hM0]
  · intro hN
    rw [hhead, hN]
    rfl

/-- Witness for C5: with the entry table at maximum 5, the first identifier
handed out is 6. -/
theorem seed_and_first_identifier_witness :
    (insert_records [] ctxtTable1 (some 5) [goodRec]).allocated.head? = some 6 :=
  (seed_and_first_identifier [] ctxtTable1 (some 5) [goodRec] (by decide)).1
    5 rfl (by decide)

/-- Counterexample to C5 as stated: on an empty entry table the first
inserted record receives identifier 2, not 1 — the seed query's NULL falls
back to 1 and the counter is incremented before first use. -/
theorem empty_table_first_identifier_cex :
    (insert_records [] ctxtTable1 none [goodRec]).allocated = [2] ∧
    (insert_records [] ctxtTable1 none [goodRec]).committed =
      [WriteOp.entry 10 (Value.intV 501) 2, WriteOp.seqUpdate] := by
  refine ⟨by decide, by decide⟩

/-- Claim C4 (amended): the insert-path failure log is truncated and given a
header at the start of EVERY insert-path invocation — one per fetched source
batch with insert candidates, not once per run — so after a batch it holds
exactly that invocation's failures (see the counterexample for the run-level
consequence); the update-path failure log is opened in append mode and gets
a header exactly when the file did not previously exist. -/
theorem failure_log_lifecycle (fd : List FieldRow) (store : Store)
    (ctxtTable : List (String × Nat)) (st : MainState) (batch : List Record)
    (oldFile : Option (List LogRow)) (records : List Record)
    (h : (divide_records batch).2 ≠ []) :
    (main_step fd store ctxtTable st batch).insertFile =
      some (LogRow.header ::
        (insert_records fd
          (fetch_form_ctxt_ids ctxtTable
            ((divide_records batch).2.map (fun r => recGetNull r "cp_id")))
          st.dbMax (divide_records batch).2).log_rows) ∧
    (oldFile = none →
      (update_records store fd oldFile records).2 =
        some (LogRow.header ::
          (update_records store fd oldFile records).1.failures)) ∧
    (∀ old : List LogRow, oldFile = some old →
      (update_records store fd oldFile records).2 =
        some (old ++ (update_records store fd oldFile records).1.failures)) := by
  refine ⟨?_, ?_, ?_⟩
  · have hne : (divide_records batch).2.isEmpty = false := by
      cases hd : (divide_records batch).2 with
      | nil => exact absurd hd h
      | cons a l => rfl
    simp only [main_step, hne]
    split <;> simp
  · intro h0
    subst h0
    simp [update_records, append_log]
  · intro old h0
    subst h0
    simp [update_records, append_log]

/-- Witness for C4: a batch of one unresolvable insert candidate rewrites
the insert log from scratch, and a fresh update log gets a header. -/
theorem failure_log_lifecycle_witness :
    (main_step [] testStore ctxtTable1 (init_main (some 5) none none)
        [badRec]).insertFile =
      some (LogRow.header ::
        (insert_records []
          (fetch_form_ctxt_ids ctxtTable1
            ((divide_records [badRec]).2.map (fun r => recGetNull r "cp_id")))
          (init_main (some 5) none none).dbMax
          (divide_records [badRec]).2).log_rows) ∧
    (update_records testStore [] (none : Option (List LogRow)) [goodUpd]).2 =
      some (LogRow.header ::
        (update_records testStore [] (none : Option (List LogRow))
          [goodUpd]).1.failures) :=
  ⟨(failure_log_lifecycle [] testStore ctxtTable1 (init_main (some 5) none none)
      [badRec] none [goodUpd] (by decide)).1,
   (failure_log_lifecycle [] testStore ctxtTable1 (init_main (some 5) none none)
      [badRec] none [goodUpd] (by decide)).2.1 rfl⟩

/-- Counterexample to C4 as stated: a run with insert failures in two
fetched batches ends with an insert log holding only the second batch's
failure row (plus the header), although the run counted two failures — the
log was truncated again by the second invocation, not exactly once per run. -/
theorem insert_log_truncated_per_batch_cex :
    (run_main [] testStore ctxtTable1 (init_main (some 5) none none)
      [[badRec], [badRec3]]).insertFile =
      some [LogRow.header,
        LogRow.insertFail badRec3 "No form context ID found for CP ID 3"] ∧
    (run_main [] testStore ctxtTable1 (init_main (some 5) none none)
      [[badRec], [badRec3]]).total_failed = 2 := by
  refine ⟨by decide, by decide⟩

/-- Claim C6 (confirmed): for a single-valued mapping whose legacy value is
present and non-empty, no write is emitted when the stored value equals the
new value under trimmed string comparison; a write is emitted exactly when
the stored value does not yet exist or differs after trimming; and a record
whose reconciliation raises no error still increments the success counter. -/
theorem update_noop_on_equal_value (store : Store) (fms : List FieldMapping)
    (record_id : Value) (rec : Record) (m : FieldMapping) (st : UpdState)
    (hm : m.is_multiselect = false)
    (hv : is_empty_value (recGetD rec m.legacy_field (.str "")) = false) :
    (∀ cv : Value,
      store.single m.target_table m.target_column record_id = some cv →
      (update_field_ops store record_id rec m = [] ↔
        py_strip cv.pyStr =
          py_strip (recGetD rec m.legacy_field (.str "")).pyStr)) ∧
    (store.single m.target_table m.target_column record_id = none →
      update_field_ops store record_id rec m =
        [UpdateOp.updateCol m.target_table m.target_column
          (py_strip (recGetD rec m.legacy_field (.str "")).pyStr) record_id]) ∧
    (∀ ops : List UpdateOp, update_process_record store fms rec = .ok ops →
      (update_step store fms st rec).success_count = st.success_count + 1) := by
  refine ⟨?_, ?_, ?_⟩
  · intro cv hcv
    by_cases heq : py_strip cv.pyStr =
        py_strip (recGetD rec m.legacy_field (.str "")).pyStr
    · simp [update_field_ops, hv, hm, hcv, heq]
    · constructor
      · intro hops
        exfalso
        simp [update_field_ops, hv, hm, hcv, heq] at hops
      · intro hcontra
        exact absurd hcontra heq
  · intro hnone
    simp [update_field_ops, hv, hm, hnone]
  · intro ops hok
    simp [update_step, hok]

/-- Witness for C6: the stored value " X " equals the incoming "X" after
trimming, so no write is emitted and the record still counts as a success. -/
theorem update_noop_on_equal_value_witness :
    update_field_ops wStore (Value.intV 7) goodUpd mC = [] ∧
    (update_step wStore [mC] updSt1 goodUpd).success_count =
      updSt1.success_count + 1 :=
  ⟨((update_noop_on_equal_value wStore [mC] (Value.intV 7) goodUpd mC updSt1
      (by decide) (by decide)).1 (Value.str " X ") rfl).mpr (by decide),
   (update_noop_on_equal_value wStore [mC] (Value.intV 7) goodUpd mC updSt1
      (by decide) (by decide)).2.2 [] rfl⟩

/-- Claim C10 (confirmed): a record whose `custom_field_record_id` is a
truthy but empty-like string (such as "null", "none" or whitespace) is
routed to the update partition by the raw-truthiness classification that
runs before sanitization, never to the insert partition; on the update path
sanitization blanks the identifier, so the record deterministically fails
with the "Missing record_id for update" error, is logged once as a failure,
and emits no write. -/
theorem empty_like_record_id_routed_to_update (s : String) (rest : Record)
    (store : Store) (fd : List FieldRow) (oldFile : Option (List LogRow))
    (hs : s ≠ "") (he : is_empty_value (Value.str s) = true) :
    (∀ batch : List Record,
      (("custom_field_record_id", Value.str s) :: rest) ∈ batch →
        (("custom_field_record_id", Value.str s) :: rest) ∈
          (divide_records batch).1 ∧
        (("custom_field_record_id", Value.str s) :: rest) ∉
          (divide_records batch).2) ∧
    (∀ fms : List FieldMapping,
      update_process_record store fms
        (sanitize_record (("custom_field_record_id", Value.str s) :: rest)) =
        .error "Missing record_id for update") ∧
    ((update_records store fd oldFile
        [("custom_field_record_id", Value.str s) :: rest]).1.success_count = 0 ∧
      (update_records store fd oldFile
        [("custom_field_record_id", Value.str s) :: rest]).1.failure_count = 1 ∧
      (update_records store fd oldFile
        [("custom_field_record_id", Value.str s) :: rest]).1.committed = [] ∧
      (update_records store fd oldFile
        [("custom_field_record_id", Value.str s) :: rest]).1.failures =
        [.updateFail
          (update_label
            (sanitize_record (("custom_field_record_id", Value.str s) :: rest)))
          "Missing record_id for update"]) := by
  have hsb : (s == "") = false := by
    cases hq : (s == "") with
    | true =>
      exfalso
      exact hs (by simpa using hq)
    | false => rfl
  have hget : recGet (("custom_field_record_id", Value.str s) :: rest)
      "custom_field_record_id" = some (Value.str s) := rfl
  have htruthy : (recGetNull (("custom_field_record_id", Value.str s) :: rest)
      "custom_field_record_id").truthy = true := by
    simp [recGetNull, hget, Value.truthy, hsb]
  have hsan : sanitize_record (("custom_field_record_id", Value.str s) :: rest) =
      ("custom_field_record_id", Value.str "") :: sanitize_record rest := by
    simp [sanitize_record, sanitize_value, he]
  have herr : ∀ fms : List FieldMapping,
      update_process_record store fms
        (sanitize_record (("custom_field_record_id", Value.str s) :: rest)) =
        .error "Missing record_id for update" := by
    intro fms
    rw [hsan]
    rfl
  refine ⟨?_, herr, ?_⟩
  · intro batch hb
    constructor
    · rw [divide_records_fst]
      exact List.mem_filter.mpr ⟨hb, htruthy⟩
    · rw [divide_records_snd]
      intro hmem
      have := (List.mem_filter.mp hmem).2
      simp [htruthy] at this
  · have hrun : (chunksOf100 (sanitize_records
        [("custom_field_record_id", Value.str s) :: rest])) =
        [[sanitize_record (("custom_field_record_id", Value.str s) :: rest)]] := rfl
    refine ⟨?_, ?_, ?_, ?_⟩ <;>
      simp [update_records, hrun, update_chunk, update_step,
        herr (fd.map make_mapping)]

/-- Witness for C10 with the identifier string "null". -/
theorem empty_like_record_id_routed_to_update_witness :
    (("custom_field_record_id", Value.str "null") ::
        [("specimen_label", Value.str "SP2")] : Record) ∈
      (divide_records [badUpd]).1 ∧
    (("custom_field_record_id", Value.str "null") ::
        [("specimen_label", Value.str "SP2")] : Record) ∉
      (divide_records [badUpd]).2 :=
  (empty_like_record_id_routed_to_update "null"
    [("specimen_label", Value.str "SP2")] testStore [] none
    (by decide) (by decide)).1 [badUpd] (by decide)
